import Mathlib

/-!
Verification development for the Sentinela_BD POI monitoring system.

The definitions below are shallow embeddings of the Python source:
* `src/cloud-functions/deviation-detector/main.py` (escalation state machine,
  alert payload builder, confidence score),
* `src/scripts/pontos_notaveis/sistema_deteccao_desvios_enhanced.py` and
  `src/scripts/pontos_notaveis/sistema_deteccao_desvios.py` (SLA evaluator,
  POI group resolution),
* `src/scripts/pontos_notaveis/gerar_relatorio_pontos_notaveis.py` and
  `src/backups/pontos_notaveis_ids_especificos_backup_20250807_131955.py`
  (session consolidation).

Timestamps are modelled as integer seconds (naive UTC), durations as rational
hours, and parse results of optional date strings as `WithBot ℤ` where `⊥`
plays the role of Python's `datetime.min` sentinel for missing or unparseable
dates.
-/

deriving instance DecidableEq for Except

namespace Sentinela

/-- Escalation severity levels N1..N4 (`level_hierarchy` in
`_should_escalate`, deviation-detector/main.py line 284). -/
inductive Level where
  | N1
  | N2
  | N3
  | N4
deriving DecidableEq, Repr

/-- Ordinal rank of a level: `level_hierarchy = {'N1': 1, 'N2': 2, 'N3': 3, 'N4': 4}`. -/
def Level.rank : Level → Nat
  | .N1 => 1
  | .N2 => 2
  | .N3 => 3
  | .N4 => 4

/-- String form of a level, as used in titles and ids. -/
def Level.str : Level → String
  | .N1 => "N1"
  | .N2 => "N2"
  | .N3 => "N3"
  | .N4 => "N4"

/-- Per-POI escalation thresholds in hours (`escalation_hours` configuration,
deviation-detector/main.py lines 191-193 and 216-218). -/
structure Thresholds where
  n1 : ℚ
  n2 : ℚ
  n3 : ℚ
  n4 : ℚ
deriving DecidableEq, Repr

/-- The default thresholds `{'N1': 2, 'N2': 4, 'N3': 8, 'N4': 12}`. -/
def defaultThresholds : Thresholds := ⟨2, 4, 8, 12⟩

/-- Threshold value looked up per level (`thresholds.get('N4', 12)` etc.). -/
def Thresholds.value (t : Thresholds) : Level → ℚ
  | .N1 => t.n1
  | .N2 => t.n2
  | .N3 => t.n3
  | .N4 => t.n4

/-- `_calculate_alert_level` (deviation-detector/main.py lines 255-267):
level from dwell duration, checking N4 first, returning `none` when even the
N1 threshold is not met. -/
def calculateAlertLevel (t : Thresholds) (durationHours : ℚ) : Option Level :=
  if durationHours ≥ t.n4 then some .N4
  else if durationHours ≥ t.n3 then some .N3
  else if durationHours ≥ t.n2 then some .N2
  else if durationHours ≥ t.n1 then some .N1
  else none

/-- Persisted per-key escalation state (Firestore document in collection
`alert_states`).  `currentLevel` and `lastAlertSent` are optional because
`_should_escalate` reads them with `.get`; a `lastAlertSent` value of
`Except.error ()` models a stored timestamp that fails to parse with
`datetime.fromisoformat`. -/
structure AlertState where
  currentLevel : Option Level
  lastAlertSent : Option (Except Unit ℤ)
  lastUpdated : ℤ
  escalationHistory : List (Level × ℤ × ℚ)
  alertCount : ℕ
deriving DecidableEq, Repr

/-- `_should_escalate` (deviation-detector/main.py lines 269-308).
`detection` is the detection timestamp in seconds; elapsed hours since the
last alert are `(detection - last) / 3600` as in
`(detection_timestamp - last_alert_dt).total_seconds() / 3600`. -/
def shouldEscalate (newLevel : Level) (state : Option AlertState) (detection : ℤ) : Bool :=
  match state with
  | none => true
  | some s =>
    match s.currentLevel with
    | none => true
    | some cur =>
      if cur.rank < newLevel.rank then true
      else if newLevel = cur then
        match s.lastAlertSent with
        | none => false
        | some (Except.error _) => true
        | some (Except.ok last) =>
          let hoursSinceLastAlert : ℚ := ((detection - last : ℤ) : ℚ) / 3600
          if newLevel = .N1 ∧ hoursSinceLastAlert ≥ 4 then true
          else if newLevel = .N2 ∧ hoursSinceLastAlert ≥ 2 then true
          else if (newLevel = .N3 ∨ newLevel = .N4) ∧ hoursSinceLastAlert ≥ 1 then true
          else false
      else false

/-- Re-alert cooldown per level, as read off the three re-alert rules of
`_should_escalate` (N1: 4h, N2: 2h, N3/N4: 1h). -/
def cooldownHours : Level → ℚ
  | .N1 => 4
  | .N2 => 2
  | .N3 => 1
  | .N4 => 1

/-- `_update_alert_state` (deviation-detector/main.py lines 409-473): update
an existing state document or create a new one, always setting
`current_level` to the deviation's level and appending a history entry.
`last_alert_sent` is not touched by this function. -/
def updateAlertState (prev : Option AlertState) (lvl : Level) (detection : ℤ)
    (durationHours : ℚ) : AlertState :=
  match prev with
  | some s =>
    { s with
      currentLevel := some lvl
      lastUpdated := detection
      escalationHistory := s.escalationHistory ++ [(lvl, detection, durationHours)]
      alertCount := s.alertCount + 1 }
  | none =>
    { currentLevel := some lvl
      lastAlertSent := none
      lastUpdated := detection
      escalationHistory := [(lvl, detection, durationHours)]
      alertCount := 1 }

/-- An active POI session row as produced by `_get_active_poi_sessions`. -/
structure Session where
  vehiclePlate : String
  vehicleId : String
  poiName : String
  poiGroup : Option String
  filial : String
  entryTimestamp : Option ℤ
  durationHours : ℚ
deriving DecidableEq, Repr

/-- A detected deviation (`Deviation` named tuple of
deviation-detector/main.py lines 24-38, logical fields). -/
structure DeviationRec where
  filial : String
  poiName : String
  vehiclePlate : String
  vehicleId : String
  currentLevel : Level
  durationHours : ℚ
  thresholdBreached : ℚ
  detectionTimestamp : ℤ
  entryTimestamp : Option ℤ
  previousState : Option AlertState
deriving DecidableEq, Repr

/-- `_analyze_session_for_deviation` (deviation-detector/main.py lines
202-253): compute the candidate level; when none, or when `_should_escalate`
declines, produce no deviation. -/
def analyzeSessionForDeviation (t : Thresholds) (sess : Session)
    (state : Option AlertState) (detection : ℤ) : Option DeviationRec :=
  match calculateAlertLevel t sess.durationHours with
  | none => none
  | some lvl =>
    if shouldEscalate lvl state detection then
      some
        { filial := sess.filial
          poiName := sess.poiName
          vehiclePlate := sess.vehiclePlate
          vehicleId := sess.vehicleId
          currentLevel := lvl
          durationHours := sess.durationHours
          thresholdBreached := t.value lvl
          detectionTimestamp := detection
          entryTimestamp := sess.entryTimestamp
          previousState := state }
    else none

/-- One escalation cycle for one session key: the deviation (if any) and the
persisted state afterwards.  `_update_alert_state` runs only for sessions
that produced a deviation (`store_deviation` is called per detected
deviation); otherwise the stored state is untouched. -/
def processSession (t : Thresholds) (sess : Session) (state : Option AlertState)
    (detection : ℤ) : Option DeviationRec × Option AlertState :=
  match analyzeSessionForDeviation t sess state detection with
  | none => (none, state)
  | some d => (some d, some (updateAlertState state d.currentLevel detection sess.durationHours))

/-- Iterated cycles for a fixed key: each step observes a session snapshot
and a detection timestamp and updates the persisted state. -/
def runCycles (t : Thresholds) (state : Option AlertState)
    (steps : List (Session × ℤ)) : Option AlertState :=
  steps.foldl (fun s p => (processSession t p.1 s p.2).2) state

/-- The stored level rank of a state document, 0 when absent. -/
def stateRank : Option AlertState → Nat
  | none => 0
  | some s =>
    match s.currentLevel with
    | none => 0
    | some l => l.rank

/-- `_get_current_alert_states` (deviation-detector/main.py lines 160-178):
the Firestore read either yields the map of active states or, on any
exception, an empty map. -/
def getCurrentAlertStates (readResult : Except Unit (List (String × AlertState))) :
    List (String × AlertState) :=
  match readResult with
  | Except.ok states => states
  | Except.error _ => []

/-- Dictionary lookup `current_states.get(session_key)`. -/
def lookupState (states : List (String × AlertState)) (key : String) : Option AlertState :=
  (states.find? (fun kv => kv.1 = key)).map (fun kv => kv.2)

/-! ### Helper lemmas about the escalation machine -/

lemma Level.forall_iff (p : Level → Prop) :
    (∀ L : Level, p L) ↔ p .N1 ∧ p .N2 ∧ p .N3 ∧ p .N4 :=
  ⟨fun h => ⟨h _, h _, h _, h _⟩, fun ⟨a, b, c, d⟩ L => by cases L <;> assumption⟩

lemma calcLevel_none_iff (t : Thresholds) (h12 : t.n1 ≤ t.n2) (h23 : t.n2 ≤ t.n3)
    (h34 : t.n3 ≤ t.n4) (d : ℚ) :
    calculateAlertLevel t d = none ↔ d < t.n1 := by
  unfold calculateAlertLevel
  split_ifs with h4 h3 h2 h1 <;> simp <;> push_neg at * <;> linarith

lemma calcLevel_some_spec (t : Thresholds) (h12 : t.n1 ≤ t.n2) (h23 : t.n2 ≤ t.n3)
    (h34 : t.n3 ≤ t.n4) (d : ℚ) (L : Level)
    (h : calculateAlertLevel t d = some L) :
    t.value L ≤ d ∧ ∀ L' : Level, L.rank < L'.rank → d < t.value L' := by
  unfold calculateAlertLevel at h
  split_ifs at h with h4 h3 h2 h1 <;> injection h with h <;> subst h <;>
    refine ⟨by simp [Thresholds.value]; linarith, ?_⟩ <;>
    (intro L' hrank
     cases L' <;> simp [Level.rank] at hrank <;> simp [Thresholds.value] <;> linarith)

lemma Level.rank_le_of_shouldEscalate (lvl cur : Level) (s : AlertState) (det : ℤ)
    (hcur : s.currentLevel = some cur)
    (h : shouldEscalate lvl (some s) det = true) : cur.rank ≤ lvl.rank := by
  by_cases hlt : cur.rank < lvl.rank
  · omega
  · by_cases heq : lvl = cur
    · subst heq; omega
    · exfalso
      simp only [shouldEscalate, hcur, if_neg hlt, if_neg heq] at h
      exact Bool.false_ne_true h

lemma analyze_of_calc_none (t : Thresholds) (sess : Session)
    (st : Option AlertState) (det : ℤ)
    (h : calculateAlertLevel t sess.durationHours = none) :
    analyzeSessionForDeviation t sess st det = none := by
  unfold analyzeSessionForDeviation
  rw [h]

lemma analyze_of_calc_some (t : Thresholds) (sess : Session)
    (st : Option AlertState) (det : ℤ) (lvl : Level)
    (h : calculateAlertLevel t sess.durationHours = some lvl) :
    analyzeSessionForDeviation t sess st det =
      (if shouldEscalate lvl st det = true then
        some
          { filial := sess.filial
            poiName := sess.poiName
            vehiclePlate := sess.vehiclePlate
            vehicleId := sess.vehicleId
            currentLevel := lvl
            durationHours := sess.durationHours
            thresholdBreached := t.value lvl
            detectionTimestamp := det
            entryTimestamp := sess.entryTimestamp
            previousState := st }
      else none) := by
  unfold analyzeSessionForDeviation
  rw [h]

lemma analyze_some_shouldEscalate (t : Thresholds) (sess : Session)
    (st : Option AlertState) (det : ℤ) (d : DeviationRec)
    (hA : analyzeSessionForDeviation t sess st det = some d) :
    shouldEscalate d.currentLevel st det = true := by
  rcases hl : calculateAlertLevel t sess.durationHours with _ | lvl
  · rw [analyze_of_calc_none t sess st det hl] at hA
    exact absurd hA (by simp)
  · rw [analyze_of_calc_some t sess st det lvl hl] at hA
    by_cases h : shouldEscalate lvl st det = true
    · rw [if_pos h] at hA
      injection hA with hA
      rw [← hA]
      exact h
    · rw [if_neg h] at hA
      exact absurd hA (by simp)

lemma processSession_of_analyze_none (t : Thresholds) (sess : Session)
    (st : Option AlertState) (det : ℤ)
    (h : analyzeSessionForDeviation t sess st det = none) :
    processSession t sess st det = (none, st) := by
  unfold processSession
  rw [h]

lemma processSession_of_analyze_some (t : Thresholds) (sess : Session)
    (st : Option AlertState) (det : ℤ) (d : DeviationRec)
    (h : analyzeSessionForDeviation t sess st det = some d) :
    processSession t sess st det =
      (some d, some (updateAlertState st d.currentLevel det sess.durationHours)) := by
  unfold processSession
  rw [h]

lemma stateRank_processSession (t : Thresholds) (sess : Session)
    (st : Option AlertState) (det : ℤ) :
    stateRank st ≤ stateRank ((processSession t sess st det).2) := by
  rcases hA : analyzeSessionForDeviation t sess st det with _ | d
  · rw [processSession_of_analyze_none t sess st det hA]
  · rw [processSession_of_analyze_some t sess st det d hA]
    cases st with
    | none => simp [stateRank]
    | some s =>
      cases hc : s.currentLevel with
      | none => simp [stateRank, updateAlertState, hc]
      | some cur =>
        have hesc := analyze_some_shouldEscalate t sess (some s) det d hA
        have := Level.rank_le_of_shouldEscalate d.currentLevel cur s det hc hesc
        simpa [stateRank, updateAlertState, hc] using this

lemma stateRank_runCycles (t : Thresholds) (st : Option AlertState)
    (steps : List (Session × ℤ)) :
    stateRank st ≤ stateRank (runCycles t st steps) := by
  induction steps generalizing st with
  | nil => simp [runCycles]
  | cons p ps ih =>
    unfold runCycles
    simp only [List.foldl_cons]
    exact le_trans (stateRank_processSession t p.1 st p.2) (ih _)

/-! ### Concrete fixtures used by witnesses -/

/-- A sample active session: 3 hours of dwell at a mapped POI. -/
def sampleSession : Session :=
  { vehiclePlate := "ABC1234", vehicleId := "v1", poiName := "PA Celulose",
    poiGroup := some "Ponto Apoio", filial := "TLS", entryTimestamp := some 0,
    durationHours := 3 }

/-- A stored state at level N2 with no recorded last alert. -/
def sampleStateN2 : AlertState :=
  { currentLevel := some Level.N2, lastAlertSent := none, lastUpdated := 0,
    escalationHistory := [], alertCount := 1 }

/-- A stored state at level N2 whose last alert was sent at time 0. -/
def sampleStateN2Alerted : AlertState :=
  { currentLevel := some Level.N2, lastAlertSent := some (Except.ok 0),
    lastUpdated := 0, escalationHistory := [], alertCount := 1 }

/-! ### Claim theorems: escalation machine -/

/-- C1: the candidate severity level is computed from total elapsed dwell
hours against per-group thresholds (defaults N1 ≥ 2h, N2 ≥ 4h, N3 ≥ 8h,
N4 ≥ 12h), the highest threshold met wins, and dwell strictly below the N1
threshold yields no candidate level, no deviation and no state change for
that session. -/
theorem candidate_level_from_dwell_C1 (t : Thresholds) (h12 : t.n1 ≤ t.n2)
    (h23 : t.n2 ≤ t.n3) (h34 : t.n3 ≤ t.n4) (d : ℚ) :
    (calculateAlertLevel t d = none ↔ d < t.n1)
    ∧ (∀ L : Level, calculateAlertLevel t d = some L ↔
        (t.value L ≤ d ∧ ∀ L' : Level, L.rank < L'.rank → d < t.value L'))
    ∧ defaultThresholds = ⟨2, 4, 8, 12⟩
    ∧ (∀ (sess : Session) (st : Option AlertState) (det : ℤ),
        sess.durationHours = d → d < t.n1 →
        processSession t sess st det = (none, st)) := by
  refine ⟨calcLevel_none_iff t h12 h23 h34 d, ?_, rfl, ?_⟩
  · intro L
    constructor
    · exact calcLevel_some_spec t h12 h23 h34 d L
    · rintro ⟨hv, hall⟩
      have hn1 : t.n1 ≤ t.value L := by cases L <;> simp [Thresholds.value] <;> linarith
      rcases hres : calculateAlertLevel t d with _ | K
      · exfalso
        have := (calcLevel_none_iff t h12 h23 h34 d).mp hres
        linarith
      · obtain ⟨hvK, hallK⟩ := calcLevel_some_spec t h12 h23 h34 d K hres
        rcases lt_trichotomy L.rank K.rank with h | h | h
        · exact absurd hvK (not_le.2 (hall K h))
        · have : L = K := by cases L <;> cases K <;> simp [Level.rank] at h ⊢
          rw [this]
        · exact absurd hv (not_le.2 (hallK L h))
  · intro sess st det hdur hlt
    have hnone : calculateAlertLevel t sess.durationHours = none := by
      rw [hdur]
      exact (calcLevel_none_iff t h12 h23 h34 d).mpr hlt
    exact processSession_of_analyze_none t sess st det
      (analyze_of_calc_none t sess st det hnone)

/-- Witness for C1 at the default thresholds: dwell 9h yields candidate N3,
dwell 1h yields no candidate and leaves the state untouched. -/
theorem candidate_level_from_dwell_C1_witness :
    calculateAlertLevel defaultThresholds 9 = some Level.N3
    ∧ calculateAlertLevel defaultThresholds 1 = none := by
  have h9 := candidate_level_from_dwell_C1 defaultThresholds (by norm_num [defaultThresholds])
    (by norm_num [defaultThresholds]) (by norm_num [defaultThresholds]) 9
  have h1 := candidate_level_from_dwell_C1 defaultThresholds (by norm_num [defaultThresholds])
    (by norm_num [defaultThresholds]) (by norm_num [defaultThresholds]) 1
  constructor
  · refine (h9.2.1 Level.N3).mpr ⟨by norm_num [defaultThresholds, Thresholds.value], ?_⟩
    intro L' hr
    cases L' <;> simp [Level.rank] at hr <;> norm_num [defaultThresholds, Thresholds.value]
  · exact h1.1.mpr (by norm_num [defaultThresholds])

/-- C2: the stored level is non-decreasing across cycles while the state
lives, and a candidate level ordinally lower than the stored level neither
decreases the stored level nor produces an alert. -/
theorem stored_level_monotone_C2 :
    (∀ (t : Thresholds) (st : Option AlertState) (steps : List (Session × ℤ)),
      stateRank st ≤ stateRank (runCycles t st steps))
    ∧ (∀ (t : Thresholds) (s : AlertState) (cur cand : Level) (sess : Session) (det : ℤ),
        s.currentLevel = some cur →
        calculateAlertLevel t sess.durationHours = some cand →
        cand.rank < cur.rank →
        shouldEscalate cand (some s) det = false
        ∧ processSession t sess (some s) det = (none, some s)) := by
  refine ⟨stateRank_runCycles, ?_⟩
  intro t s cur cand sess det hcur hcand hlt
  have hne : cand ≠ cur := by
    intro h; subst h; exact lt_irrefl _ hlt
  have hesc : shouldEscalate cand (some s) det = false := by
    simp only [shouldEscalate, hcur, if_neg (by omega : ¬ cur.rank < cand.rank), if_neg hne]
  refine ⟨hesc, ?_⟩
  have hA : analyzeSessionForDeviation t sess (some s) det = none := by
    rw [analyze_of_calc_some t sess (some s) det cand hcand, hesc]
    simp
  exact processSession_of_analyze_none t sess (some s) det hA

/-- Witness for C2: a state stored at N2 facing a dwell-derived candidate N1
is left unchanged and produces no alert; iterated cycles never lower the
rank. -/
theorem stored_level_monotone_C2_witness :
    shouldEscalate Level.N1 (some sampleStateN2) 7200 = false
    ∧ stateRank (some sampleStateN2)
      ≤ stateRank (runCycles defaultThresholds (some sampleStateN2)
          [(sampleSession, 7200)]) := by
  constructor
  · exact (stored_level_monotone_C2.2 defaultThresholds sampleStateN2
      Level.N2 Level.N1 sampleSession 7200
      rfl (by norm_num [calculateAlertLevel, sampleSession, defaultThresholds])
      (by simp [Level.rank])).1
  · exact stored_level_monotone_C2.1 defaultThresholds _ _

/-- C3: with candidate level equal to the stored level and a parseable last
alert time, an alert is emitted iff the elapsed hours since the last alert
reach the level's re-alert cooldown (N1: 4h, N2: 2h, N3/N4: 1h). -/
theorem realert_cooldown_C3 (s : AlertState) (L : Level) (last det : ℤ)
    (hcur : s.currentLevel = some L)
    (hlast : s.lastAlertSent = some (Except.ok last)) :
    shouldEscalate L (some s) det = true
      ↔ cooldownHours L ≤ ((det - last : ℤ) : ℚ) / 3600 := by
  simp only [shouldEscalate, hcur, hlast, if_neg (lt_irrefl L.rank), if_pos rfl]
  cases L <;> simp [cooldownHours]

/-- Witness for C3: a key at N2 re-checked 1 hour after its last alert is
suppressed; re-checked 2.5 hours after, an alert is emitted. -/
theorem realert_cooldown_C3_witness :
    shouldEscalate Level.N2 (some sampleStateN2Alerted) 3600 = false
    ∧ shouldEscalate Level.N2 (some sampleStateN2Alerted) 9000 = true := by
  constructor
  · have h := realert_cooldown_C3 sampleStateN2Alerted Level.N2 0 3600 rfl rfl
    cases hb : shouldEscalate Level.N2 (some sampleStateN2Alerted) 3600 with
    | false => rfl
    | true =>
      have := h.mp hb
      norm_num [cooldownHours] at this
  · exact (realert_cooldown_C3 sampleStateN2Alerted Level.N2 0 9000 rfl rfl).mpr
      (by norm_num [cooldownHours])

/-- C8: when the persisted-state read fails, every key resolves to no prior
state, the first-alert branch of the transition rule applies, and a deviation
record is produced whenever a candidate level exists. -/
theorem fail_open_C8 :
    (∀ (e : Unit) (key : String),
      lookupState (getCurrentAlertStates (Except.error e)) key = none)
    ∧ (∀ (lvl : Level) (det : ℤ), shouldEscalate lvl none det = true)
    ∧ (∀ (t : Thresholds) (sess : Session) (det : ℤ) (lvl : Level),
        calculateAlertLevel t sess.durationHours = some lvl →
        ∃ d : DeviationRec, analyzeSessionForDeviation t sess none det = some d
          ∧ d.currentLevel = lvl ∧ d.previousState = none) := by
  refine ⟨fun e key => rfl, fun lvl det => rfl, ?_⟩
  intro t sess det lvl h
  have hA := analyze_of_calc_some t sess none det lvl h
  rw [if_pos (show shouldEscalate lvl none det = true from rfl)] at hA
  exact ⟨_, hA, rfl, rfl⟩

/-- Witness for C8: with the storage read failing and a 3-hour dwell at the
default thresholds, an N1 deviation is produced. -/
theorem fail_open_C8_witness :
    ∃ d : DeviationRec,
      analyzeSessionForDeviation defaultThresholds sampleSession none 0 = some d
      ∧ d.currentLevel = Level.N1 ∧ d.previousState = none :=
  fail_open_C8.2.2 defaultThresholds sampleSession 0 Level.N1
    (by norm_num [calculateAlertLevel, sampleSession, defaultThresholds])

/-! ### SLA evaluator (`analisar_desvios_sla`,
sistema_deteccao_desvios_enhanced.py lines 311-350) -/

/-- A processed active vehicle (`veiculo_info`,
sistema_deteccao_desvios_enhanced.py lines 292-300). -/
structure VeiculoInfo where
  placa : String
  poi : String
  filial : String
  grupo : String
  tempoPermanenciaHoras : ℚ
deriving DecidableEq, Repr

/-- A detected SLA deviation (`desvio_info`,
sistema_deteccao_desvios_enhanced.py lines 338-346). -/
structure DesvioInfo where
  filial : String
  grupo : String
  qtdVeiculos : ℕ
  limiteSla : ℕ
  excesso : ℤ
  veiculos : List VeiculoInfo
deriving DecidableEq, Repr

/-- The grouping key `f"{filial}_{grupo}"`; `filial` values (`RRP`, `TLS`,
`DESCONHECIDA`) contain no underscore, so the string key round-trips through
`split('_', 1)` and is faithfully a pair. -/
def chaveGrupo (v : VeiculoInfo) : String × String := (v.filial, v.grupo)

/-- Keys of the `defaultdict` in first-insertion order (Python dict order). -/
def gruposVeiculoKeys (vs : List VeiculoInfo) : List (String × String) :=
  vs.foldl (fun acc v => if chaveGrupo v ∈ acc then acc else acc ++ [chaveGrupo v]) []

/-- The deviation emitted for one key, if any: skip keys without a configured
limit, emit iff the vehicle count strictly exceeds the limit. -/
def emitDesvio (slaLimites : String → String → Option ℕ) (vs : List VeiculoInfo)
    (k : String × String) : Option DesvioInfo :=
  match slaLimites k.1 k.2 with
  | none => none
  | some lim =>
    if (vs.filter (fun v => chaveGrupo v = k)).length > lim then
      some
        { filial := k.1
          grupo := k.2
          qtdVeiculos := (vs.filter (fun v => chaveGrupo v = k)).length
          limiteSla := lim
          excesso := ((vs.filter (fun v => chaveGrupo v = k)).length : ℤ) - (lim : ℤ)
          veiculos := vs.filter (fun v => chaveGrupo v = k) }
    else none

/-- `analisar_desvios_sla`: group active vehicles by (filial, grupo) and emit
one deviation per over-limit group. -/
def analisarDesviosSla (slaLimites : String → String → Option ℕ)
    (vs : List VeiculoInfo) : List DesvioInfo :=
  (gruposVeiculoKeys vs).filterMap (emitDesvio slaLimites vs)

lemma mem_gruposVeiculoKeys_aux (vs : List VeiculoInfo)
    (acc : List (String × String)) (k : String × String) :
    k ∈ vs.foldl (fun acc v => if chaveGrupo v ∈ acc then acc else acc ++ [chaveGrupo v]) acc
      ↔ k ∈ acc ∨ ∃ v ∈ vs, chaveGrupo v = k := by
  induction vs generalizing acc with
  | nil => simp
  | cons v vs ih =>
    simp only [List.foldl_cons]
    by_cases h : chaveGrupo v ∈ acc
    · rw [if_pos h, ih]
      constructor
      · rintro (hk | hk)
        · exact Or.inl hk
        · exact Or.inr (by simpa using Or.inr hk)
      · rintro (hk | hk)
        · exact Or.inl hk
        · rcases hk with ⟨w, hw, hwk⟩
          rcases List.mem_cons.mp hw with rfl | hw
          · exact Or.inl (hwk ▸ h)
          · exact Or.inr ⟨w, hw, hwk⟩
    · rw [if_neg h, ih]
      constructor
      · rintro (hk | hk)
        · rcases List.mem_append.mp hk with hk | hk
          · exact Or.inl hk
          · exact Or.inr ⟨v, List.mem_cons_self _ _, (List.mem_singleton.mp hk).symm⟩
        · exact Or.inr (by simpa using Or.inr hk)
      · rintro (hk | hk)
        · exact Or.inl (List.mem_append.mpr (Or.inl hk))
        · rcases hk with ⟨w, hw, hwk⟩
          rcases List.mem_cons.mp hw with rfl | hw
          · exact Or.inl (List.mem_append.mpr (Or.inr (by simp [hwk])))
          · exact Or.inr ⟨w, hw, hwk⟩

lemma mem_gruposVeiculoKeys (vs : List VeiculoInfo) (k : String × String) :
    k ∈ gruposVeiculoKeys vs ↔ ∃ v ∈ vs, chaveGrupo v = k := by
  rw [gruposVeiculoKeys, mem_gruposVeiculoKeys_aux]
  simp

lemma nodup_gruposVeiculoKeys_aux (vs : List VeiculoInfo)
    (acc : List (String × String)) (hacc : acc.Nodup) :
    (vs.foldl (fun acc v => if chaveGrupo v ∈ acc then acc else acc ++ [chaveGrupo v]) acc).Nodup := by
  induction vs generalizing acc with
  | nil => exact hacc
  | cons v vs ih =>
    simp only [List.foldl_cons]
    by_cases h : chaveGrupo v ∈ acc
    · rw [if_pos h]; exact ih acc hacc
    · rw [if_neg h]
      refine ih _ ?_
      simpa [List.nodup_append, hacc] using h

lemma nodup_gruposVeiculoKeys (vs : List VeiculoInfo) :
    (gruposVeiculoKeys vs).Nodup :=
  nodup_gruposVeiculoKeys_aux vs [] List.nodup_nil

lemma emitDesvio_of_no_limit (L : String → String → Option ℕ) (vs : List VeiculoInfo)
    (k : String × String) (hl : L k.1 k.2 = none) : emitDesvio L vs k = none := by
  unfold emitDesvio
  rw [hl]

lemma emitDesvio_of_limit (L : String → String → Option ℕ) (vs : List VeiculoInfo)
    (k : String × String) (lim : ℕ) (hl : L k.1 k.2 = some lim) :
    emitDesvio L vs k =
      (if (vs.filter (fun v => chaveGrupo v = k)).length > lim then
        some
          { filial := k.1
            grupo := k.2
            qtdVeiculos := (vs.filter (fun v => chaveGrupo v = k)).length
            limiteSla := lim
            excesso := ((vs.filter (fun v => chaveGrupo v = k)).length : ℤ) - (lim : ℤ)
            veiculos := vs.filter (fun v => chaveGrupo v = k) }
      else none) := by
  unfold emitDesvio
  rw [hl]

lemma emitDesvio_key (L : String → String → Option ℕ) (vs : List VeiculoInfo)
    (k : String × String) (d : DesvioInfo) (h : emitDesvio L vs k = some d) :
    d.filial = k.1 ∧ d.grupo = k.2 := by
  rcases hl : L k.1 k.2 with _ | lim
  · rw [emitDesvio_of_no_limit L vs k hl] at h
    exact absurd h (by simp)
  · rw [emitDesvio_of_limit L vs k lim hl] at h
    by_cases hc : (vs.filter (fun v => chaveGrupo v = k)).length > lim
    · rw [if_pos hc] at h
      injection h with h
      rw [← h]
      exact ⟨rfl, rfl⟩
    · rw [if_neg hc] at h
      exact absurd h (by simp)

lemma filter_filterMap_emit (L : String → String → Option ℕ) (vs : List VeiculoInfo)
    (keys : List (String × String)) (k : String × String) (hnd : keys.Nodup) :
    (keys.filterMap (emitDesvio L vs)).filter
        (fun d => decide (d.filial = k.1 ∧ d.grupo = k.2))
      = if k ∈ keys then (emitDesvio L vs k).toList else [] := by
  induction keys with
  | nil => simp
  | cons k' keys ih =>
    have hnd' := (List.nodup_cons.mp hnd).2
    have hknot := (List.nodup_cons.mp hnd).1
    by_cases hk : k = k'
    · subst hk
      rw [if_pos (List.mem_cons_self _ _)]
      rcases he : emitDesvio L vs k with _ | d
      · simp only [List.filterMap_cons, he]
        rw [ih hnd', if_neg hknot]
        simp
      · simp only [List.filterMap_cons, he]
        have hd := emitDesvio_key L vs k d he
        rw [List.filter_cons_of_pos (by simp [hd.1, hd.2])]
        rw [ih hnd', if_neg hknot]
        simp
    · rcases he : emitDesvio L vs k' with _ | d
      · simp only [List.filterMap_cons, he]
        rw [ih hnd']
        simp [List.mem_cons, hk]
      · simp only [List.filterMap_cons, he]
        have hd := emitDesvio_key L vs k' d he
        rw [List.filter_cons_of_neg
          (by simp [hd.1, hd.2]; intro h1 h2; exact hk (Prod.ext h1 h2).symm)]
        rw [ih hnd']
        simp [List.mem_cons, hk]

/-- C4: for a (filial, grupo) key with configured limit, a count equal to the
limit yields no deviation, and a count of limit + 1 yields exactly one
deviation whose observed count is limit + 1. -/
theorem sla_strict_boundary_C4 (L : String → String → Option ℕ)
    (vs : List VeiculoInfo) (f g : String) (lim : ℕ)
    (hlim : L f g = some lim) :
    ((vs.filter (fun v => chaveGrupo v = (f, g))).length = lim →
      ∀ d ∈ analisarDesviosSla L vs, ¬(d.filial = f ∧ d.grupo = g))
    ∧ ((vs.filter (fun v => chaveGrupo v = (f, g))).length = lim + 1 →
      (analisarDesviosSla L vs).filter
          (fun d => decide (d.filial = f ∧ d.grupo = g))
        = [{ filial := f, grupo := g, qtdVeiculos := lim + 1, limiteSla := lim,
             excesso := 1, veiculos := vs.filter (fun v => chaveGrupo v = (f, g)) }]) := by
  constructor
  · intro hcnt d hd hdk
    have hfil : d ∈ (analisarDesviosSla L vs).filter
        (fun d => decide (d.filial = f ∧ d.grupo = g)) := by
      simp [List.mem_filter, hd, hdk.1, hdk.2]
    rw [analisarDesviosSla,
      filter_filterMap_emit L vs (gruposVeiculoKeys vs) (f, g)
        (nodup_gruposVeiculoKeys vs)] at hfil
    by_cases hmem : (f, g) ∈ gruposVeiculoKeys vs
    · rw [if_pos hmem] at hfil
      have hnone : emitDesvio L vs (f, g) = none := by
        rw [emitDesvio_of_limit L vs (f, g) lim hlim,
          if_neg (by omega : ¬ (vs.filter (fun v => chaveGrupo v = (f, g))).length > lim)]
      rw [hnone] at hfil
      simp at hfil
    · rw [if_neg hmem] at hfil
      simp at hfil
  · intro hcnt
    have hmem : (f, g) ∈ gruposVeiculoKeys vs := by
      rw [mem_gruposVeiculoKeys]
      have : vs.filter (fun v => chaveGrupo v = (f, g)) ≠ [] := by
        intro h
        rw [h] at hcnt
        simp at hcnt
      rcases List.exists_mem_of_ne_nil _ this with ⟨v, hv⟩
      exact ⟨v, (List.mem_filter.mp hv).1, by simpa using (List.mem_filter.mp hv).2⟩
    rw [analisarDesviosSla,
      filter_filterMap_emit L vs (gruposVeiculoKeys vs) (f, g)
        (nodup_gruposVeiculoKeys vs), if_pos hmem,
      emitDesvio_of_limit L vs (f, g) lim hlim,
      if_pos (by omega : (vs.filter (fun v => chaveGrupo v = (f, g))).length > lim)]
    simp [hcnt]

/-- Witness for C4 with limit 1: two vehicles in the same group produce one
deviation with observed count 2, one vehicle produces none. -/
theorem sla_strict_boundary_C4_witness :
    ((([⟨"AAA1111", "PA Celulose", "TLS", "Ponto Apoio", 3⟩] :
        List VeiculoInfo).filter (fun v => chaveGrupo v = ("TLS", "Ponto Apoio"))).length = 1 →
      ∀ d ∈ analisarDesviosSla (fun f g => if f = "TLS" ∧ g = "Ponto Apoio" then some 1 else none)
          [⟨"AAA1111", "PA Celulose", "TLS", "Ponto Apoio", 3⟩],
        ¬(d.filial = "TLS" ∧ d.grupo = "Ponto Apoio"))
    ∧ ((([⟨"AAA1111", "PA Celulose", "TLS", "Ponto Apoio", 3⟩,
          ⟨"BBB2222", "PA Celulose", "TLS", "Ponto Apoio", 4⟩] :
        List VeiculoInfo).filter (fun v => chaveGrupo v = ("TLS", "Ponto Apoio"))).length = 1 + 1 →
      (analisarDesviosSla (fun f g => if f = "TLS" ∧ g = "Ponto Apoio" then some 1 else none)
          [⟨"AAA1111", "PA Celulose", "TLS", "Ponto Apoio", 3⟩,
           ⟨"BBB2222", "PA Celulose", "TLS", "Ponto Apoio", 4⟩]).filter
          (fun d => decide (d.filial = "TLS" ∧ d.grupo = "Ponto Apoio"))
        = [{ filial := "TLS", grupo := "Ponto Apoio", qtdVeiculos := 1 + 1, limiteSla := 1,
             excesso := 1,
             veiculos := [⟨"AAA1111", "PA Celulose", "TLS", "Ponto Apoio", 3⟩,
                          ⟨"BBB2222", "PA Celulose", "TLS", "Ponto Apoio", 4⟩].filter
                            (fun v => chaveGrupo v = ("TLS", "Ponto Apoio")) }]) :=
  ⟨(sla_strict_boundary_C4
      (fun f g => if f = "TLS" ∧ g = "Ponto Apoio" then some 1 else none)
      [⟨"AAA1111", "PA Celulose", "TLS", "Ponto Apoio", 3⟩]
      "TLS" "Ponto Apoio" 1 (by simp)).1,
   (sla_strict_boundary_C4
      (fun f g => if f = "TLS" ∧ g = "Ponto Apoio" then some 1 else none)
      [⟨"AAA1111", "PA Celulose", "TLS", "Ponto Apoio", 3⟩,
       ⟨"BBB2222", "PA Celulose", "TLS", "Ponto Apoio", 4⟩]
      "TLS" "Ponto Apoio" 1 (by simp)).2⟩

/-! ### String removal helper

Python's `str.replace(old, '')` removes every (leftmost, non-overlapping)
occurrence of `old`.  The pattern is given as a head character plus tail so
it is never empty; an explicit fuel argument (initialised to the string
length, an upper bound on the number of steps) makes the scan structurally
recursive. -/

def removeAllAux (p : Char × List Char) : ℕ → List Char → List Char
  | _, [] => []
  | 0, s => s
  | fuel + 1, c :: rest =>
    if (p.1 :: p.2).isPrefixOf (c :: rest) then
      removeAllAux p fuel (rest.drop p.2.length)
    else
      c :: removeAllAux p fuel rest

/-- Remove every occurrence of the pattern `p.1 :: p.2` from a character
list, scanning left to right as `str.replace(old, '')` does. -/
def removeAll (p : Char × List Char) (s : List Char) : List Char :=
  removeAllAux p s.length s

/-- `.replace(' (Consolidado)', '')` applied to a status string. -/
def statusSemConsolidado (s : String) : String :=
  String.mk (removeAll (' ', "(Consolidado)".toList) s.toList)

/-! ### Session consolidation

Events and their date fields.  A `Data_Entrada`/`Data_Saida`/
`Data_Atualizacao` string is modelled by its parse result: `none` stands for
an empty or unparseable string, which `parse_data_entrada`/`parse_data_saida`
map to `datetime.min` (sorting before every real timestamp). -/

structure Evento where
  placa : String
  descricaoPoi : String
  grupoPoi : String
  dataEntrada : Option ℤ
  dataSaida : Option ℤ
  dataAtualizacao : Option ℤ
  duracao : ℚ
  status : String
deriving DecidableEq, Repr

/-- Sort key of a parsed date: `datetime.min` (`⊥`) for missing dates. -/
def dtKey : Option ℤ → WithBot ℤ
  | none => ⊥
  | some x => (x : WithBot ℤ)

/-- Banker's rounding (Python `round`): round to nearest, ties to even. -/
def roundHalfEven (q : ℚ) : ℤ :=
  if q - ⌊q⌋ < 1 / 2 then ⌊q⌋
  else if q - ⌊q⌋ > 1 / 2 then ⌊q⌋ + 1
  else if ⌊q⌋ % 2 = 0 then ⌊q⌋ else ⌊q⌋ + 1

/-- Python `round(x, 2)`. -/
def round2 (q : ℚ) : ℚ := (roundHalfEven (q * 100) : ℚ) / 100

/-- `calcular_duracao_formatada` (gerar_relatorio_pontos_notaveis.py lines
532-554): 0 when either date is missing/unparseable, 0 when the difference
is negative, otherwise decimal hours rounded to 2 places. -/
def calcularDuracaoFormatada : Option ℤ → Option ℤ → ℚ
  | some entrada, some saida =>
    if saida - entrada < 0 then 0
    else round2 (((saida - entrada : ℤ) : ℚ) / 3600)
  | _, _ => 0

/-- Python `min(lst, key=f)`: first element attaining the minimal key. -/
def minByDataEntrada : List Evento → Option Evento
  | [] => none
  | e :: rest =>
    some (rest.foldl
      (fun best x => if dtKey x.dataEntrada < dtKey best.dataEntrada then x else best) e)

/-- Python `max(lst, key=f)`: first element attaining the maximal key. -/
def maxByDataSaida : List Evento → Option Evento
  | [] => none
  | e :: rest =>
    some (rest.foldl
      (fun best x => if dtKey best.dataSaida < dtKey x.dataSaida then x else best) e)

lemma foldl_minBy_spec {α β : Type} [LinearOrder β] (f : α → β) (l : List α) (e : α) :
    l.foldl (fun best x => if f x < f best then x else best) e ∈ e :: l
    ∧ ∀ x ∈ e :: l,
      f (l.foldl (fun best x => if f x < f best then x else best) e) ≤ f x := by
  induction l generalizing e with
  | nil => simp
  | cons y ys ih =>
    simp only [List.foldl_cons]
    by_cases h : f y < f e
    · rw [if_pos h]
      obtain ⟨hmem, hall⟩ := ih y
      constructor
      · rcases List.mem_cons.mp hmem with h1 | h1 <;> simp [h1]
      · intro x hx
        rcases List.mem_cons.mp hx with rfl | hx
        · exact le_trans (hall y (List.mem_cons_self _ _)) (le_of_lt h)
        · exact hall x hx
    · rw [if_neg h]
      obtain ⟨hmem, hall⟩ := ih e
      constructor
      · rcases List.mem_cons.mp hmem with h1 | h1 <;> simp [h1]
      · intro x hx
        rcases List.mem_cons.mp hx with rfl | hx
        · exact hall x (List.mem_cons_self _ _)
        · rcases List.mem_cons.mp hx with rfl | hx
          · exact le_trans (hall e (List.mem_cons_self _ _)) (le_of_not_lt h)
          · exact hall x (List.mem_cons_of_mem _ hx)

lemma foldl_maxBy_spec {α β : Type} [LinearOrder β] (f : α → β) (l : List α) (e : α) :
    l.foldl (fun best x => if f best < f x then x else best) e ∈ e :: l
    ∧ ∀ x ∈ e :: l,
      f x ≤ f (l.foldl (fun best x => if f best < f x then x else best) e) := by
  induction l generalizing e with
  | nil => simp
  | cons y ys ih =>
    simp only [List.foldl_cons]
    by_cases h : f e < f y
    · rw [if_pos h]
      obtain ⟨hmem, hall⟩ := ih y
      constructor
      · rcases List.mem_cons.mp hmem with h1 | h1 <;> simp [h1]
      · intro x hx
        rcases List.mem_cons.mp hx with rfl | hx
        · exact le_trans (le_of_lt h) (hall y (List.mem_cons_self _ _))
        · exact hall x hx
    · rw [if_neg h]
      obtain ⟨hmem, hall⟩ := ih e
      constructor
      · rcases List.mem_cons.mp hmem with h1 | h1 <;> simp [h1]
      · intro x hx
        rcases List.mem_cons.mp hx with rfl | hx
        · exact hall x (List.mem_cons_self _ _)
        · rcases List.mem_cons.mp hx with rfl | hx
          · exact le_trans (le_of_not_lt h) (hall e (List.mem_cons_self _ _))
          · exact hall x (List.mem_cons_of_mem _ hx)

lemma minByDataEntrada_spec (e : Evento) (rest : List Evento) (m : Evento)
    (h : minByDataEntrada (e :: rest) = some m) :
    m ∈ e :: rest ∧ ∀ x ∈ e :: rest, dtKey m.dataEntrada ≤ dtKey x.dataEntrada := by
  have hm : m = rest.foldl
      (fun best x => if dtKey x.dataEntrada < dtKey best.dataEntrada then x else best) e := by
    injection h with h
    exact h.symm
  subst hm
  exact foldl_minBy_spec (fun ev => dtKey ev.dataEntrada) rest e

lemma maxByDataSaida_spec (e : Evento) (rest : List Evento) (m : Evento)
    (h : maxByDataSaida (e :: rest) = some m) :
    m ∈ e :: rest ∧ ∀ x ∈ e :: rest, dtKey x.dataSaida ≤ dtKey m.dataSaida := by
  have hm : m = rest.foldl
      (fun best x => if dtKey best.dataSaida < dtKey x.dataSaida then x else best) e := by
    injection h with h
    exact h.symm
  subst hm
  exact foldl_maxBy_spec (fun ev => dtKey ev.dataSaida) rest e

/-- `consolidar_grupos_relacionados` (backup script lines 368-432): merged
entry is the first entry across ALL related events, merged exit is the last
exit of the specific group, duration is recomputed, the POI description
becomes the group name. -/
def consolidarGruposRelacionados (eventosGrupo todosRelacionados : List Evento)
    (grupoNome : String) : Option Evento :=
  match eventosGrupo with
  | [] => none
  | base :: _ =>
    match minByDataEntrada todosRelacionados, maxByDataSaida eventosGrupo with
    | some primeiro, some ultimo =>
      some { base with
        dataEntrada := primeiro.dataEntrada
        dataSaida := ultimo.dataSaida
        dataAtualizacao := ultimo.dataAtualizacao
        duracao := calcularDuracaoFormatada primeiro.dataEntrada ultimo.dataSaida
        status := statusSemConsolidado base.status
        descricaoPoi := grupoNome }
    | _, _ => none

/-- The dispatch for one group-specific subset inside a related set (backup
script lines 315-326): consolidate when the subset has more than one event
or the related set as a whole has more events than the subset; otherwise the
single event passes through unchanged. -/
def processarGrupoEspecifico (eventosGrupo todosRelacionados : List Evento)
    (grupoNome : String) : List Evento :=
  if eventosGrupo.length > 1 ∨ todosRelacionados.length > eventosGrupo.length then
    (consolidarGruposRelacionados eventosGrupo todosRelacionados grupoNome).toList
  else
    eventosGrupo.take 1

/-- `consolidar_sequencia_poi` (gerar_relatorio_pontos_notaveis.py lines
483-530): a singleton passes through; otherwise keep the first event's entry
and take the last exit across the run, recomputing the duration. -/
def consolidarSequenciaPoi (seq : List Evento) : Option Evento :=
  match seq with
  | [] => none
  | [e] => some e
  | primeiro :: next :: rest =>
    match maxByDataSaida (primeiro :: next :: rest) with
    | some ultimo =>
      some { primeiro with
        dataSaida := ultimo.dataSaida
        dataAtualizacao := ultimo.dataAtualizacao
        duracao := calcularDuracaoFormatada primeiro.dataEntrada ultimo.dataSaida
        status := statusSemConsolidado primeiro.status }
    | none => none

/-- The consecutive same-POI scan of `consolidar_eventos_consecutivos`
(gerar_relatorio_pontos_notaveis.py lines 317-348), fuel-indexed to make the
loop structurally recursive; the fuel (initially the list length) bounds the
number of runs consumed. -/
def consolidarEventosVeiculoAux : ℕ → List Evento → List Evento
  | _, [] => []
  | 0, l => l
  | fuel + 1, e :: rest =>
    (if (e :: rest.takeWhile (fun x => x.descricaoPoi == e.descricaoPoi)).length > 1 then
      (consolidarSequenciaPoi
        (e :: rest.takeWhile (fun x => x.descricaoPoi == e.descricaoPoi))).toList
    else [e])
      ++ consolidarEventosVeiculoAux fuel
          (rest.dropWhile (fun x => x.descricaoPoi == e.descricaoPoi))

/-- Per-vehicle scan grouping maximal runs of consecutive events with the
identical POI description. -/
def consolidarEventosVeiculo (l : List Evento) : List Evento :=
  consolidarEventosVeiculoAux l.length l

lemma consolidarEventosVeiculoAux_nil (n : ℕ) : consolidarEventosVeiculoAux n [] = [] := by
  cases n <;> rfl

lemma consolidarEventosVeiculoAux_fuel :
    ∀ (n m : ℕ) (l : List Evento), l.length ≤ n → l.length ≤ m →
      consolidarEventosVeiculoAux n l = consolidarEventosVeiculoAux m l := by
  intro n
  induction n with
  | zero =>
    intro m l hn _
    have : l = [] := List.length_eq_zero.mp (Nat.le_zero.mp hn)
    subst this
    rw [consolidarEventosVeiculoAux_nil, consolidarEventosVeiculoAux_nil]
  | succ n ih =>
    intro m l hn hm
    cases l with
    | nil => rw [consolidarEventosVeiculoAux_nil, consolidarEventosVeiculoAux_nil]
    | cons e rest =>
      cases m with
      | zero => simp at hm
      | succ m =>
        show (if _ then _ else _) ++ consolidarEventosVeiculoAux n _
            = (if _ then _ else _) ++ consolidarEventosVeiculoAux m _
        congr 1
        have hd : (rest.dropWhile (fun x => x.descricaoPoi == e.descricaoPoi)).length
            ≤ rest.length := (List.dropWhile_sublist _).length_le
        have hrn : rest.length ≤ n := by simpa using hn
        have hrm : rest.length ≤ m := by simpa using hm
        exact ih m _ (le_trans hd hrn) (le_trans hd hrm)

lemma consolidarEventosVeiculo_cons (e : Evento) (rest : List Evento) :
    consolidarEventosVeiculo (e :: rest) =
      (if (e :: rest.takeWhile (fun x => x.descricaoPoi == e.descricaoPoi)).length > 1 then
        (consolidarSequenciaPoi
          (e :: rest.takeWhile (fun x => x.descricaoPoi == e.descricaoPoi))).toList
      else [e])
      ++ consolidarEventosVeiculo (rest.dropWhile (fun x => x.descricaoPoi == e.descricaoPoi)) := by
  show consolidarEventosVeiculoAux (rest.length + 1) (e :: rest) = _
  show (if _ then _ else _) ++ consolidarEventosVeiculoAux rest.length _ = _
  congr 1
  exact consolidarEventosVeiculoAux_fuel rest.length _ _
    (List.dropWhile_sublist _).length_le (le_refl _)

lemma takeWhile_dropWhile_append {α : Type} (p : α → Bool) (l1 l2 : List α)
    (h1 : ∀ x ∈ l1, p x = true) (h2 : ∀ y, l2.head? = some y → p y = false) :
    (l1 ++ l2).takeWhile p = l1 ∧ (l1 ++ l2).dropWhile p = l2 := by
  induction l1 with
  | nil =>
    simp only [List.nil_append]
    cases l2 with
    | nil => simp
    | cons y ys =>
      have := h2 y rfl
      simp [List.takeWhile_cons, List.dropWhile_cons, this]
  | cons a l1 ih =>
    have ha := h1 a (List.mem_cons_self _ _)
    have ih2 := ih (fun x hx => h1 x (List.mem_cons_of_mem _ hx))
    simp [List.takeWhile_cons, List.dropWhile_cons, ha, ih2.1, ih2.2]

/-- C5: a group-specific subset of a related POI set with more than one
event, or with siblings elsewhere in the related set, consolidates into one
session whose entry is the first entry across the entire related set and
whose exit is the last exit within the subset, with the duration recomputed
from those two timestamps; a subset with exactly one event and no siblings
passes through unchanged. -/
theorem related_set_consolidation_C5 (base : Evento) (rest todos : List Evento)
    (g : String) (htodos : todos ≠ []) :
    ((base :: rest).length > 1 ∨ todos.length > (base :: rest).length →
      ∃ primeiro ultimo,
        minByDataEntrada todos = some primeiro ∧ primeiro ∈ todos
        ∧ (∀ x ∈ todos, dtKey primeiro.dataEntrada ≤ dtKey x.dataEntrada)
        ∧ maxByDataSaida (base :: rest) = some ultimo ∧ ultimo ∈ base :: rest
        ∧ (∀ x ∈ base :: rest, dtKey x.dataSaida ≤ dtKey ultimo.dataSaida)
        ∧ processarGrupoEspecifico (base :: rest) todos g
          = [{ base with
               dataEntrada := primeiro.dataEntrada
               dataSaida := ultimo.dataSaida
               dataAtualizacao := ultimo.dataAtualizacao
               duracao := calcularDuracaoFormatada primeiro.dataEntrada ultimo.dataSaida
               status := statusSemConsolidado base.status
               descricaoPoi := g }])
    ∧ (rest = [] ∧ todos.length = 1 →
        processarGrupoEspecifico (base :: rest) todos g = [base]) := by
  obtain ⟨t0, ts, rfl⟩ := List.exists_cons_of_ne_nil htodos
  constructor
  · intro hcond
    refine ⟨_, _, rfl, ?_, ?_, rfl, ?_, ?_, ?_⟩
    · exact (minByDataEntrada_spec t0 ts _ rfl).1
    · exact (minByDataEntrada_spec t0 ts _ rfl).2
    · exact (maxByDataSaida_spec base rest _ rfl).1
    · exact (maxByDataSaida_spec base rest _ rfl).2
    · rw [processarGrupoEspecifico, if_pos hcond]
      rfl
  · rintro ⟨rfl, hlen⟩
    have hts : ts = [] := by simpa using hlen
    subst hts
    rw [processarGrupoEspecifico, if_neg (by simp)]
    rfl

/-- C6: every maximal run of consecutive events sharing the identical POI
description consolidates into one session whose entry is the run's first
entry and whose exit is the maximum exit timestamp across the run; a run of
length one passes through unchanged. -/
theorem same_poi_run_consolidation_C6 (e : Evento) (r t : List Evento) (p : String)
    (hall : ∀ x ∈ e :: r, x.descricaoPoi = p)
    (ht : ∀ y, t.head? = some y → y.descricaoPoi ≠ p) :
    (r = [] → consolidarEventosVeiculo (e :: r ++ t) = e :: consolidarEventosVeiculo t)
    ∧ (r ≠ [] →
      ∃ ultimo, maxByDataSaida (e :: r) = some ultimo ∧ ultimo ∈ e :: r
        ∧ (∀ x ∈ e :: r, dtKey x.dataSaida ≤ dtKey ultimo.dataSaida)
        ∧ consolidarEventosVeiculo (e :: r ++ t)
          = { e with
              dataSaida := ultimo.dataSaida
              dataAtualizacao := ultimo.dataAtualizacao
              duracao := calcularDuracaoFormatada e.dataEntrada ultimo.dataSaida
              status := statusSemConsolidado e.status } :: consolidarEventosVeiculo t) := by
  have hpe : e.descricaoPoi = p := hall e (List.mem_cons_self _ _)
  have htw := takeWhile_dropWhile_append (fun x => x.descricaoPoi == e.descricaoPoi) r t
    (fun x hx => by
      have := hall x (List.mem_cons_of_mem _ hx)
      simp [this, hpe])
    (fun y hy => by
      have := ht y hy
      simp [hpe]
      intro hcontra
      exact absurd hcontra this)
  constructor
  · rintro rfl
    simp only [List.nil_append] at htw
    simp only [List.singleton_append]
    rw [consolidarEventosVeiculo_cons e t, htw.1, htw.2]
    simp
  · intro hr
    obtain ⟨r1, rs, rfl⟩ := List.exists_cons_of_ne_nil hr
    refine ⟨_, rfl, ?_, ?_, ?_⟩
    · exact (maxByDataSaida_spec e (r1 :: rs) _ rfl).1
    · exact (maxByDataSaida_spec e (r1 :: rs) _ rfl).2
    · rw [show (e : Evento) :: (r1 :: rs) ++ t = e :: ((r1 :: rs) ++ t) from rfl,
        consolidarEventosVeiculo_cons e ((r1 :: rs) ++ t)]
      rcases htw with ⟨htake, hdrop⟩
      rw [htake, hdrop, if_pos (by simp)]
      rfl

/-- Loading event of a related set (group `Carregamento`): entry at second 0,
exit at second 3600. -/
def evCarregamento : Evento :=
  { placa := "V1", descricaoPoi := "Carregamento Fabrica RRP", grupoPoi := "Carregamento",
    dataEntrada := some 0, dataSaida := some 3600, dataAtualizacao := some 3600,
    duracao := 1, status := "Saiu" }

/-- Factory event of the same related set (group `Fábrica`): entry at second
1800, exit at second 7200. -/
def evFabrica : Evento :=
  { placa := "V1", descricaoPoi := "Fabrica RRP", grupoPoi := "Fábrica",
    dataEntrada := some 1800, dataSaida := some 7200, dataAtualizacao := some 7200,
    duracao := 1, status := "Saiu" }

/-- Witness for C5: with related events in `Carregamento` and `Fábrica`, the
consolidated `Fábrica` session takes the earlier entry (from the
`Carregamento` event) and its own exit, with the duration recomputed to 2
hours. -/
theorem related_set_consolidation_C5_witness :
    processarGrupoEspecifico [evFabrica] [evCarregamento, evFabrica] "Fábrica"
      = [{ placa := "V1", descricaoPoi := "Fábrica", grupoPoi := "Fábrica",
           dataEntrada := some 0, dataSaida := some 7200, dataAtualizacao := some 7200,
           duracao := 2, status := "Saiu" }] := by
  obtain ⟨h1, -⟩ := related_set_consolidation_C5 evFabrica [] [evCarregamento, evFabrica]
    "Fábrica" (by simp)
  obtain ⟨pr, ul, hmin, -, -, hmax, -, -, heq⟩ := h1 (Or.inr (by simp))
  rw [heq]
  have hpr : pr = evCarregamento := by
    have h : minByDataEntrada [evCarregamento, evFabrica] = some evCarregamento := by decide
    rw [h] at hmin
    exact (Option.some.inj hmin).symm
  have hul : ul = evFabrica := by
    have h : maxByDataSaida [evFabrica] = some evFabrica := rfl
    rw [h] at hmax
    exact (Option.some.inj hmax).symm
  rw [hpr, hul]
  have hdur : calcularDuracaoFormatada (some 0) (some 7200) = 2 := by
    norm_num [calcularDuracaoFormatada, round2, roundHalfEven]
  have hst : statusSemConsolidado "Saiu" = "Saiu" := by decide
  simp [evCarregamento, evFabrica, hdur, hst]

/-- First event at POI `Descarga TAP`: entry 0, exit 1800. -/
def evTap1 : Evento :=
  { placa := "V2", descricaoPoi := "Descarga TAP", grupoPoi := "Terminal",
    dataEntrada := some 0, dataSaida := some 1800, dataAtualizacao := some 1800,
    duracao := 1, status := "Saiu" }

/-- Second event at the same POI: entry 3600, exit 14400 (the latest). -/
def evTap2 : Evento :=
  { placa := "V2", descricaoPoi := "Descarga TAP", grupoPoi := "Terminal",
    dataEntrada := some 3600, dataSaida := some 14400, dataAtualizacao := some 14400,
    duracao := 3, status := "Saiu" }

/-- Third event at the same POI: entry 7200, exit 10800. -/
def evTap3 : Evento :=
  { placa := "V2", descricaoPoi := "Descarga TAP", grupoPoi := "Terminal",
    dataEntrada := some 7200, dataSaida := some 10800, dataAtualizacao := some 10800,
    duracao := 1, status := "Saiu" }

/-- Witness for C6: three consecutive events at the same POI consolidate into
one session with the earliest entry (0) and the latest exit (14400, attained
by the middle event), duration 4 hours. -/
theorem same_poi_run_consolidation_C6_witness :
    consolidarEventosVeiculo [evTap1, evTap2, evTap3]
      = [{ placa := "V2", descricaoPoi := "Descarga TAP", grupoPoi := "Terminal",
           dataEntrada := some 0, dataSaida := some 14400, dataAtualizacao := some 14400,
           duracao := 4, status := "Saiu" }] := by
  obtain ⟨-, h2⟩ := same_poi_run_consolidation_C6 evTap1 [evTap2, evTap3] [] "Descarga TAP"
    (by intro x hx; simp at hx; rcases hx with rfl | rfl | rfl <;> rfl)
    (by intro y hy; simp at hy)
  obtain ⟨u, hmax, -, -, heq⟩ := h2 (by simp)
  rw [List.append_nil] at heq
  have hu : u = evTap2 := by
    have h : maxByDataSaida [evTap1, evTap2, evTap3] = some evTap2 := by decide
    rw [h] at hmax
    exact (Option.some.inj hmax).symm
  rw [hu] at heq
  rw [heq]
  have hdur : calcularDuracaoFormatada (some 0) (some 14400) = 4 := by
    norm_num [calcularDuracaoFormatada, round2, roundHalfEven]
  have hst : statusSemConsolidado "Saiu" = "Saiu" := by decide
  have hnil : consolidarEventosVeiculo ([] : List Evento) = [] := rfl
  simp [evTap1, evTap2, hdur, hst, hnil]

/-! ### POI group resolution (`obter_grupo_poi`,
gerar_relatorio_pontos_notaveis.py lines 95-112) -/

/-- Python substring test `a in b` on character lists. -/
def containsSub (a b : List Char) : Bool :=
  b.tails.any (fun t => a.isPrefixOf t)

/-- Case-insensitive substring test, as in
`poi.lower() in descricao_lower or descricao_lower in poi.lower()`
(`String.toLower` is `String.map Char.toLower`, written here over the
character lists). -/
def containsSubCI (a b : String) : Bool :=
  containsSub (a.toList.map Char.toLower) (b.toList.map Char.toLower)

/-- Exact dictionary lookup `descricao_poi in grupos` / `grupos[descricao_poi]`
on the POI→group table (rows of `Grupos.csv` in file order). -/
def lookupGrupo (grupos : List (String × String)) (poi : String) : Option String :=
  (grupos.find? (fun kv => kv.1 = poi)).map (fun kv => kv.2)

/-- `obter_grupo_poi`: sentinel when the table or the name is empty; exact
match first; then the first table key matching by case-insensitive substring
containment in either direction; otherwise the unmapped sentinel. -/
def obterGrupoPoi (grupos : List (String × String)) (descricaoPoi : String) : String :=
  if grupos = [] ∨ descricaoPoi = "" then "Não Classificado"
  else
    match lookupGrupo grupos descricaoPoi with
    | some g => g
    | none =>
      match grupos.find?
          (fun kv => containsSubCI kv.1 descricaoPoi || containsSubCI descricaoPoi kv.1) with
      | some kv => kv.2
      | none => "Não Mapeado"

/-- The per-event acceptance filter of `processar_eventos_api`
(sistema_deteccao_desvios_enhanced.py lines 283-290): a vehicle whose group
is the unmapped sentinel is skipped, then the group's lookback window is
applied. -/
def veiculoPassaFiltro (grupo : String) (tempoPermanencia janelaGrupo : ℚ) : Bool :=
  if grupo = "Não Mapeado" then false
  else if tempoPermanencia > janelaGrupo then false
  else true

lemma obterGrupoPoi_of_exact (grupos : List (String × String)) (poi g : String)
    (hne : ¬(grupos = [] ∨ poi = "")) (h : lookupGrupo grupos poi = some g) :
    obterGrupoPoi grupos poi = g := by
  rw [obterGrupoPoi, if_neg hne, h]

lemma obterGrupoPoi_of_substring (grupos : List (String × String)) (poi : String)
    (kv : String × String) (hne : ¬(grupos = [] ∨ poi = ""))
    (h : lookupGrupo grupos poi = none)
    (hf : grupos.find?
      (fun kv => containsSubCI kv.1 poi || containsSubCI poi kv.1) = some kv) :
    obterGrupoPoi grupos poi = kv.2 := by
  rw [obterGrupoPoi, if_neg hne, h, hf]

lemma obterGrupoPoi_of_unresolved (grupos : List (String × String)) (poi : String)
    (hne : ¬(grupos = [] ∨ poi = ""))
    (h : lookupGrupo grupos poi = none)
    (hf : grupos.find?
      (fun kv => containsSubCI kv.1 poi || containsSubCI poi kv.1) = none) :
    obterGrupoPoi grupos poi = "Não Mapeado" := by
  rw [obterGrupoPoi, if_neg hne, h, hf]

/-- C7: group resolution returns the exact table match first; failing that,
the group of the first table key related to the name by case-insensitive
substring containment in either direction (that key really is in the table
and really matches); failing both, the unmapped sentinel, which the SLA
evaluator's event filter excludes from evaluation. -/
theorem group_resolution_C7 (grupos : List (String × String)) (poi : String)
    (hne : ¬(grupos = [] ∨ poi = "")) :
    (∀ g, lookupGrupo grupos poi = some g → obterGrupoPoi grupos poi = g)
    ∧ (∀ kv : String × String, lookupGrupo grupos poi = none →
        grupos.find? (fun kv => containsSubCI kv.1 poi || containsSubCI poi kv.1) = some kv →
        obterGrupoPoi grupos poi = kv.2 ∧ kv ∈ grupos
          ∧ (containsSubCI kv.1 poi || containsSubCI poi kv.1) = true)
    ∧ (lookupGrupo grupos poi = none →
        grupos.find? (fun kv => containsSubCI kv.1 poi || containsSubCI poi kv.1) = none →
        obterGrupoPoi grupos poi = "Não Mapeado")
    ∧ (∀ tempo janela : ℚ, veiculoPassaFiltro "Não Mapeado" tempo janela = false) := by
  refine ⟨fun g h => obterGrupoPoi_of_exact grupos poi g hne h, ?_,
    obterGrupoPoi_of_unresolved grupos poi hne,
    fun tempo janela => rfl⟩
  intro kv h hf
  refine ⟨obterGrupoPoi_of_substring grupos poi kv hne h hf,
    List.mem_of_find?_eq_some hf, ?_⟩
  have hp := List.find?_some hf
  simpa using hp

/-- A small POI→group table used by the C7 witness. -/
def gruposExemplo : List (String × String) :=
  [("Descarga TAP", "Terminal"), ("Carregamento Fabrica", "Fábrica")]

/-- Witness for C7: an exact hit resolves directly; a name with no exact hit
resolves through bidirectional case-insensitive substring match; an unrelated
name yields the unmapped sentinel, which the event filter rejects. -/
theorem group_resolution_C7_witness :
    obterGrupoPoi gruposExemplo "Descarga TAP" = "Terminal"
    ∧ obterGrupoPoi gruposExemplo "Carregamento Fabrica RRP" = "Fábrica"
    ∧ obterGrupoPoi gruposExemplo "Posto Mutum" = "Não Mapeado"
    ∧ veiculoPassaFiltro "Não Mapeado" 3 24 = false := by
  refine ⟨?_, ?_, ?_, ?_⟩
  · exact (group_resolution_C7 gruposExemplo "Descarga TAP" (by simp [gruposExemplo])).1
      "Terminal" (by decide)
  · exact ((group_resolution_C7 gruposExemplo "Carregamento Fabrica RRP"
      (by simp [gruposExemplo])).2.1
      ("Carregamento Fabrica", "Fábrica") (by decide) (by decide)).1
  · exact (group_resolution_C7 gruposExemplo "Posto Mutum"
      (by simp [gruposExemplo])).2.2.1 (by decide) (by decide)
  · exact (group_resolution_C7 gruposExemplo "Posto Mutum"
      (by simp [gruposExemplo])).2.2.2 3 24

/-! ### Alert payload builder (`normalize_poi_name` and
`_generate_alert_title`, deviation-detector/main.py lines 54-61 and 374-387) -/

/-- The single-character entries of the `special_chars` list. -/
def punctChars : List Char := ['?', '-', '.', '/', '\\', '(', ')', '[', ']']

/-- The `special_chars` list of `normalize_poi_name` in source order: the
two-character mojibake sequence first, then the punctuation characters. -/
def specialCharsSeq : List (Char × List Char) :=
  ('Â', ['¿']) :: punctChars.map (fun c => (c, []))

/-- `normalize_poi_name`: remove spaces with `.replace(' ', '')`, then remove
each `special_chars` entry in order. -/
def normalizePoiName (s : List Char) : List Char :=
  specialCharsSeq.foldl (fun acc p => removeAll p acc) (removeAll (' ', []) s)

/-- `normalize_poi_name` on a string. -/
def normalizePoiNameStr (s : String) : String :=
  String.mk (normalizePoiName s.toList)

/-- Normalization as the claim words it: drop every whitespace character and
every character of the punctuation set. -/
def claimNormalize (s : List Char) : List Char :=
  s.filter (fun c => ¬(c.isWhitespace ∨ c ∈ punctChars))

/-- `detection_timestamp.replace(minute=0, second=0, microsecond=0)`: floor
the timestamp to the hour. -/
def closedHourSec (t : ℤ) : ℤ := t - t % 3600

/-- `closed_hour.astimezone(CAMPO_GRANDE_TZ)` with the process clock in UTC
and `CAMPO_GRANDE_TZ = timezone(timedelta(hours=-4))`. -/
def toCampoGrandeLocal (t : ℤ) : ℤ := t - 4 * 3600

/-- Zero-padded two-digit rendering of a field value. -/
def pad2 (n : ℤ) : String := if n < 10 then "0" ++ toString n else toString n

/-- Zero-padded four-digit rendering of the year (`%Y`). -/
def pad4 (n : ℤ) : String :=
  if n < 10 then "000" ++ toString n
  else if n < 100 then "00" ++ toString n
  else if n < 1000 then "0" ++ toString n
  else toString n

/-- Gregorian date from days since the Unix epoch (standard civil-from-days
computation on floor divisions): returns (year, month, day). -/
def civilFromDays (z0 : ℤ) : ℤ × ℤ × ℤ :=
  let z := z0 + 719468
  let era := z / 146097
  let doe := z - era * 146097
  let yoe := (doe - doe / 1460 + doe / 36524 - doe / 146096) / 365
  let y := yoe + era * 400
  let doy := doe - (365 * yoe + yoe / 4 - yoe / 100)
  let mp := (5 * doy + 2) / 153
  let d := doy - (153 * mp + 2) / 5 + 1
  let m := mp + (if mp < 10 then 3 else -9)
  (if m ≤ 2 then y + 1 else y, m, d)

/-- `strftime('%d%m%Y')` of a timestamp in seconds. -/
def dateStrDDMMYYYY (t : ℤ) : String :=
  let c := civilFromDays (t / 86400)
  pad2 c.2.2 ++ pad2 c.2.1 ++ pad4 c.1

/-- `strftime('%H%M%S')` of a timestamp in seconds. -/
def timeStrHHMMSS (t : ℤ) : String :=
  let sec := t % 86400
  pad2 (sec / 3600) ++ pad2 (sec % 3600 / 60) ++ pad2 (sec % 60)

/-- `_generate_alert_title`:
`{FILIAL}_{POI_SEM_ESPACOS}_{NIVEL}_{DDMMYYYY}_{HHMMSS}` rendered from the
closed detection hour converted to the Campo Grande timezone. -/
def generateAlertTitle (filial poiNormalized : String) (level : Level)
    (detection : ℤ) : String :=
  filial ++ "_" ++ poiNormalized ++ "_" ++ level.str ++ "_"
    ++ dateStrDDMMYYYY (toCampoGrandeLocal (closedHourSec detection)) ++ "_"
    ++ timeStrHHMMSS (toCampoGrandeLocal (closedHourSec detection))

lemma removeAllAux_single (c : Char) :
    ∀ (n : ℕ) (s : List Char), s.length ≤ n →
      removeAllAux (c, []) n s = s.filter (fun x => x ≠ c) := by
  intro n
  induction n with
  | zero =>
    intro s hs
    have : s = [] := List.length_eq_zero.mp (Nat.le_zero.mp hs)
    subst this
    rfl
  | succ n ih =>
    intro s hs
    cases s with
    | nil => rfl
    | cons x rest =>
      have hrest : rest.length ≤ n := by simpa using hs
      show (if (c :: ([] : List Char)).isPrefixOf (x :: rest) then
          removeAllAux (c, []) n (rest.drop ([] : List Char).length)
        else x :: removeAllAux (c, []) n rest) = _
      by_cases hx : x = c
      · subst hx
        rw [if_pos (by simp [List.isPrefixOf])]
        simp only [List.length_nil, List.drop_zero]
        rw [ih rest hrest]
        simp [List.filter_cons]
      · rw [if_neg (by simp [List.isPrefixOf]; exact fun h => absurd h.symm hx)]
        rw [ih rest hrest]
        simp [List.filter_cons, hx]

lemma removeAll_single (c : Char) (s : List Char) :
    removeAll (c, []) s = s.filter (fun x => x ≠ c) :=
  removeAllAux_single c s.length s (le_refl _)

lemma filter_punct_chain (m : List Char) :
    ((((((((m.filter (fun c => c ≠ '?')).filter (fun c => c ≠ '-')).filter
        (fun c => c ≠ '.')).filter (fun c => c ≠ '/')).filter
        (fun c => c ≠ '\\')).filter (fun c => c ≠ '(')).filter
        (fun c => c ≠ ')')).filter (fun c => c ≠ '[')).filter (fun c => c ≠ ']')
      = m.filter (fun c => ¬(c ∈ punctChars)) := by
  simp only [List.filter_filter]
  refine List.filter_congr ?_
  intro a _
  by_cases h : a ∈ punctChars
  · have h9 : a = '?' ∨ a = '-' ∨ a = '.' ∨ a = '/' ∨ a = '\\' ∨ a = '(' ∨ a = ')'
        ∨ a = '[' ∨ a = ']' := by simpa [punctChars] using h
    rcases h9 with rfl | rfl | rfl | rfl | rfl | rfl | rfl | rfl | rfl <;> decide
  · have h9 : ¬(a = '?' ∨ a = '-' ∨ a = '.' ∨ a = '/' ∨ a = '\\' ∨ a = '(' ∨ a = ')'
        ∨ a = '[' ∨ a = ']') := by simpa [punctChars] using h
    push_neg at h9
    obtain ⟨h1, h2, h3, h4, h5, h6, h7, h8, h9x⟩ := h9
    simp [punctChars, h1, h2, h3, h4, h5, h6, h7, h8, h9x]

lemma normalizePoiName_eq (s : List Char) :
    normalizePoiName s
      = (removeAll ('Â', ['¿']) (s.filter (fun c => c ≠ ' '))).filter
          (fun c => ¬(c ∈ punctChars)) := by
  simp only [normalizePoiName, specialCharsSeq, punctChars, List.map_cons, List.map_nil,
    List.foldl_cons, List.foldl_nil, removeAll_single]
  exact filter_punct_chain _

/-- C9 counterexample: the claim describes normalization as removing all
whitespace and the listed punctuation, but the code removes only the space
character (a tab survives) and additionally removes the two-character
mojibake sequence `Â¿` (which the claim's description keeps). -/
theorem alert_title_C9_counterexample :
    normalizePoiName ['a', '\t', 'b'] ≠ claimNormalize ['a', '\t', 'b']
    ∧ normalizePoiName ['a', 'Â', '¿', 'b'] ≠ claimNormalize ['a', 'Â', '¿', 'b']
    ∧ normalizePoiName ['a', '\t', 'b'] = ['a', '\t', 'b']
    ∧ claimNormalize ['a', '\t', 'b'] = ['a', 'b']
    ∧ normalizePoiName ['a', 'Â', '¿', 'b'] = ['a', 'b']
    ∧ claimNormalize ['a', 'Â', '¿', 'b'] = ['a', 'Â', '¿', 'b'] := by decide

/-- C9 (amended): the alert title equals
{branch}_{normalizedPOI}_{level}_{ddmmyyyy}_{hhmmss} with the timestamp
component the closed detection hour converted to UTC-4; normalization
removes all space characters, then every occurrence of the sequence `Â¿`,
then the punctuation characters (other whitespace is kept); any two alerts
for the same key and level within the same clock hour get identical titles;
and "Carregamento Fabrica RRP " normalizes to "CarregamentoFabricaRRP". -/
theorem alert_title_C9 :
    (∀ s : List Char, normalizePoiName s
        = (removeAll ('Â', ['¿']) (s.filter (fun c => c ≠ ' '))).filter
            (fun c => ¬(c ∈ punctChars)))
    ∧ (∀ (f pn : String) (L : Level) (t₁ t₂ : ℤ), t₁ / 3600 = t₂ / 3600 →
        generateAlertTitle f pn L t₁ = generateAlertTitle f pn L t₂)
    ∧ (∀ (f pn : String) (L : Level) (t : ℤ),
        generateAlertTitle f pn L t
          = f ++ "_" ++ pn ++ "_" ++ L.str ++ "_"
            ++ dateStrDDMMYYYY (toCampoGrandeLocal (closedHourSec t)) ++ "_"
            ++ timeStrHHMMSS (toCampoGrandeLocal (closedHourSec t)))
    ∧ normalizePoiNameStr "Carregamento Fabrica RRP " = "CarregamentoFabricaRRP" := by
  refine ⟨normalizePoiName_eq, ?_, fun f pn L t => rfl, by decide⟩
  intro f pn L t₁ t₂ h
  have hc : closedHourSec t₁ = closedHourSec t₂ := by
    unfold closedHourSec
    omega
  unfold generateAlertTitle
  rw [hc]

/-- Witness for C9: two detection instants inside the same clock hour produce
the same title, and normalization removes an inner space. -/
theorem alert_title_C9_witness :
    generateAlertTitle "RRP" "CarregamentoFabricaRRP" Level.N1 1000
      = generateAlertTitle "RRP" "CarregamentoFabricaRRP" Level.N1 2000
    ∧ normalizePoiName ['a', ' ', 'b'] = ['a', 'b'] := by
  constructor
  · exact alert_title_C9.2.1 "RRP" "CarregamentoFabricaRRP" Level.N1 1000 2000 (by decide)
  · rw [alert_title_C9.1]
    decide

/-! ### Confidence score (`_calculate_confidence_score`,
deviation-detector/main.py lines 310-327) -/

/-- Whether a stored state shows a repeated pattern:
`len(current_state.get('escalation_history', [])) > 1`. -/
def temPadraoRepetido : Option AlertState → Bool
  | none => false
  | some st => st.escalationHistory.length > 1

/-- `_calculate_confidence_score`: baseline 1.0, ×0.7 when the entry
timestamp is missing, ×0.9 when the POI group is missing/empty/`Unknown`,
×1.1 when the escalation history has more than one entry, capped at 1. -/
def calculateConfidenceScore (entryTimestamp : Option ℤ) (poiGroup : Option String)
    (state : Option AlertState) : ℚ :=
  let score1 : ℚ := 1
  let score2 := if entryTimestamp = none then score1 * (7 / 10) else score1
  let score3 := if poiGroup = none ∨ poiGroup = some "" ∨ poiGroup = some "Unknown"
    then score2 * (9 / 10) else score2
  let score4 :=
    match state with
    | none => score3
    | some st => if st.escalationHistory.length > 1 then score3 * (11 / 10) else score3
  min score4 1

/-- The score as the claim words it: baseline 1.0 discounted by 0.7 for a
missing entry timestamp and 0.9 for an unmapped/low-quality group, clamped
to [0, 1]. -/
def claimConfidenceScore (entryMissing lowQuality : Bool) : ℚ :=
  max (min ((1 : ℚ) * (if entryMissing then 7 / 10 else 1)
    * (if lowQuality then 9 / 10 else 1)) 1) 0

/-- The amended closed form: the two discounts plus the ×1.1
repeated-pattern boost, capped at 1 (the result is never negative, so it
lies in [0, 1] without an explicit floor). -/
def amendedConfidenceScore (entryMissing lowQuality repeatedPattern : Bool) : ℚ :=
  min ((if entryMissing then (7 : ℚ) / 10 else 1) * (if lowQuality then (9 : ℚ) / 10 else 1)
    * (if repeatedPattern then (11 : ℚ) / 10 else 1)) 1

/-- A stored state whose escalation history has two entries. -/
def sampleStateHist2 : AlertState :=
  { currentLevel := some Level.N2, lastAlertSent := none, lastUpdated := 0,
    escalationHistory := [(Level.N1, 0, 2), (Level.N2, 3600, 4)], alertCount := 2 }

/-- C10 counterexample: with a missing entry timestamp, a mapped group and a
state whose history has two entries, the code multiplies in a ×1.1
repeated-pattern boost the claim does not mention: the code yields 0.77, the
claim's formula 0.7. -/
theorem confidence_score_C10_counterexample :
    calculateConfidenceScore none (some "Fábrica") (some sampleStateHist2) = 77 / 100
    ∧ claimConfidenceScore true false = 7 / 10
    ∧ (77 / 100 : ℚ) ≠ 7 / 10 := by
  refine ⟨?_, by norm_num [claimConfidenceScore], by norm_num⟩
  have hg : ¬(some "Fábrica" = (none : Option String) ∨ ("Fábrica" : String) = ""
      ∨ ("Fábrica" : String) = "Unknown") := by simp
  norm_num [calculateConfidenceScore, sampleStateHist2, min_def, hg]

/-- C10 (amended): the confidence score always lies in [0, 1] and equals the
baseline 1.0 discounted by ×0.7 for a missing entry timestamp and ×0.9 for a
missing/empty/`Unknown` group, boosted by ×1.1 when the prior state's
escalation history has more than one entry, capped at 1. -/
theorem confidence_score_C10 (entry : Option ℤ) (grp : Option String)
    (st : Option AlertState) :
    0 ≤ calculateConfidenceScore entry grp st
    ∧ calculateConfidenceScore entry grp st ≤ 1
    ∧ calculateConfidenceScore entry grp st
      = amendedConfidenceScore (decide (entry = none))
          (decide (grp = none ∨ grp = some "" ∨ grp = some "Unknown"))
          (temPadraoRepetido st) := by
  unfold calculateConfidenceScore amendedConfidenceScore temPadraoRepetido
  cases st <;> split_ifs <;>
    (try simp_all [min_def]) <;>
    (try split_ifs) <;>
    first
      | omega
      | linarith
      | norm_num

end Sentinela
